import Mathlib

/-!
Shallow embedding of the file-store client (src/main.rs, src/clap_struct.rs,
src/controller/mod.rs, src/interface_server.rs).

Bytes are modelled as Nat, byte buffers as List Nat, digests as opaque
strings produced by an abstract digest function, and fallible operations
as Except String results.  Loops over a file or over server replies are
modelled as functions over the finite list of read results they consume.
-/

/-- One result of a read call (local file read or server read RPC):
either a buffer of bytes, or an I/O or transport error. -/
abbrev ReadResult := Except String (List Nat)

/-- The byte stream fed to the BLAKE3 hasher by the hashing loops at
src/main.rs:209-220, 355-366 and 589-604.  The Rust loop is
while let Ok(len) = file.read(..) with a break on len == 0, so an Ok
chunk of positive length is hashed and the loop continues, an empty Ok
chunk stops the loop, and an Err stops the loop exactly like EOF. -/
def hashedBytes : List ReadResult → List Nat
  | [] => []
  | Except.ok c :: rest => if c.length > 0 then c ++ hashedBytes rest else []
  | Except.error _ :: _ => []

/-- Result of the whole hashing block as its caller sees it.  The Rust
block has type String (a digest is always produced); it has no error
channel, so the embedding always returns Except.ok of the hashed bytes. -/
def hasherResult (reads : List ReadResult) : Except String (List Nat) :=
  Except.ok (hashedBytes reads)

/-- Events of the tail of pull_file (src/main.rs:571-617), in the order
the code performs them. -/
inductive PullEvent where
  | writeAll (data : List Nat)
  | flushFd
  | finishReadKey
  | rehashFile
  | removeFile
  | logSuccess
  deriving DecidableEq, Repr

/-- The chunks accumulated by the sync download loop at
src/main.rs:572-581: while let Ok(data) = server.read(..), stop on an
empty chunk; a transport Err also merely ends the loop. -/
def syncReadChunks : List ReadResult → List (List Nat)
  | [] => []
  | Except.ok d :: rest => if d.isEmpty then [] else d :: syncReadChunks rest
  | Except.error _ :: _ => []

/-- Result of the sync download loop as pull_file sees it: the loop body
cannot propagate an error (the while-let swallows Err), so the loop always
completes with the chunks it gathered. -/
def pull_file_sync_read_result (responses : List ReadResult) :
    Except String (List (List Nat)) :=
  Except.ok (syncReadChunks responses)

/-- Event trace of the sync pull path from the download loop up to the
re-hash (src/main.rs:571-604): the written chunks, then flush, then
finish_read_key, then the re-hash of the saved file. -/
def pull_file_sync_trace (responses : List ReadResult) : List PullEvent :=
  (syncReadChunks responses).map PullEvent.writeAll ++
    [PullEvent.flushFd, PullEvent.finishReadKey, PullEvent.rehashFile]

/-- The verification tail of pull_file (src/main.rs:606-615): compare the
recomputed digest with the remote one; on disagreement remove the saved
file and then fail with an error carrying the remote and local digests
(in that order, as in the message listing remote b3 then local b3);
on agreement log success and return Ok. -/
def pull_file_verify (localB3 remoteB3 : String) :
    List PullEvent × Except (String × String) Unit :=
  if localB3 ≠ remoteB3 then
    ([PullEvent.removeFile], Except.error (remoteB3, localB3))
  else
    ([PullEvent.logSuccess], Except.ok ())

/-- The full finalization of a pull: re-hash the saved file (the reads of
the saved file are the parameter) with an abstract hex digest function,
then run the verification tail against the server-reported digest. -/
def pull_file_finish (b3hex : List Nat → String) (savedReads : List ReadResult)
    (remoteB3 : String) : List PullEvent × Except (String × String) Unit :=
  pull_file_verify (b3hex (hashedBytes savedReads)) remoteB3

/-- Events of push_image (src/main.rs:334-440). -/
inductive ImageEvent where
  | lockCall (files : List String) (overwrite : Bool)
  | pushFile (name : String)
  | logLockError (msg : String)
  deriving DecidableEq, Repr

/-- The sequential per-file push loop of push_image (src/main.rs:420-433):
each file is pushed in turn; the first failing push aborts the rest and
propagates its error.  The outcome of pushing one file is abstracted as a
function from its logical name to a result. -/
def pushFilesLoop (pushResult : String → Except String Unit) :
    List String → List ImageEvent × Except String Unit
  | [] => ([], Except.ok ())
  | n :: rest =>
    match pushResult n with
    | Except.error e => ([ImageEvent.pushFile n], Except.error e)
    | Except.ok () =>
      let t := pushFilesLoop pushResult rest
      (ImageEvent.pushFile n :: t.1, t.2)

/-- Control flow of push_image after the logical names are computed
(src/main.rs:334-440): call lock on the batch; if the server grants the
lock, push every file sequentially; otherwise log the message with
log::error and fall through to Ok(()). -/
def push_image_flow (pushResult : String → Except String Unit)
    (lockReply : Bool × String) (check_files : List String) (overwrite : Bool) :
    List ImageEvent × Except String Unit :=
  let lockEv := ImageEvent.lockCall check_files overwrite
  if lockReply.1 then
    let t := pushFilesLoop pushResult check_files
    (lockEv :: t.1, t.2)
  else
    (lockEv :: [ImageEvent.logLockError lockReply.2], Except.ok ())

/-- The environment model of a regular file's successful reads: the
successive nonempty buffers a file with contents data yields to
file.read with buffer size block while no I/O error occurs, each of
min(block, remaining) bytes (none at all when block = 0, since a read
into a zero-length buffer returns 0 bytes).  This models the file, not
the upload loop; the loop itself is pushWriteLoop below.  The fuel
argument bounds the recursion; data.length suffices. -/
def chunkFileGo (block : Nat) : Nat → List Nat → List (List Nat)
  | _, [] => []
  | 0, _ :: _ => []
  | Nat.succ fuel, d :: ds =>
    if block = 0 then []
    else (d :: ds).take block :: chunkFileGo block fuel ((d :: ds).drop block)

/-- The successful-read chunks of a file with contents data. -/
def chunkFile (block : Nat) (data : List Nat) : List (List Nat) :=
  chunkFileGo block data.length data

/-- The upload loop of push and push_image (src/main.rs:240-253 and
377-390), over the successive results of file.read: while let
Ok(len) = file.read(&mut buff) writes buff[..len] at the running
position when len > 0 and advances the position by len; an empty read
(EOF) breaks the loop, and a read Err also breaks the loop silently,
exactly like EOF.  Returns the (offset, payload) pairs of the issued
data-carrying calls; sync-mode write sends the same payloads in the same
order without the offset. -/
def pushWriteLoop : Nat → List ReadResult → List (Nat × List Nat)
  | _, [] => []
  | pos, Except.ok c :: rest =>
    if c.isEmpty then [] else (pos, c) :: pushWriteLoop (pos + c.length) rest
  | _, Except.error _ :: _ => []

/-- The read results a regular file with contents data yields to the
upload loop when no I/O error occurs: the successive nonempty chunks,
then one final empty read at EOF (immediately, when block = 0). -/
def fileReads (block : Nat) (data : List Nat) : List ReadResult :=
  (chunkFile block data).map Except.ok ++ [Except.ok []]

/-- The (offset, payload) pairs of the async-mode write_offset RPCs of an
error-free run (src/main.rs:246), in call order. -/
def push_write_offset_calls (block : Nat) (data : List Nat) :
    List (Nat × List Nat) :=
  pushWriteLoop 0 (fileReads block data)

/-- Payloads of the sync-mode write RPCs of an error-free run
(src/main.rs:244), in call order. -/
def push_write_chunks (block : Nat) (data : List Nat) : List (List Nat) :=
  (push_write_offset_calls block data).map Prod.snd

/-- Attach offsets to chunks the way the upload loop does: position starts
at 0 and advances by the length of each chunk just written
(src/main.rs:233, 246-248). -/
def writeCalls : Nat → List (List Nat) → List (Nat × List Nat)
  | _, [] => []
  | pos, c :: cs => (pos, c) :: writeCalls (pos + c.length) cs

/-- Checks that a list of (offset, payload) calls is contiguous from the
given position: each call carries exactly the running position, has a
nonempty payload, and advances the position by its payload length. -/
def contiguousFrom : Nat → List (Nat × List Nat) → Bool
  | _, [] => true
  | pos, (o, c) :: rest =>
    (o == pos) && (!c.isEmpty) && contiguousFrom (pos + c.length) rest

/-- The async-upload drain loop of push (src/main.rs:257-263):
while !server.check_finish(key).await? && retry_count < 20, with a 10 ms
sleep in the body.  resp gives the reply to the n-th check_finish call
(0-indexed); fuel is the remaining budget of the retry_count < 20 guard,
and k is the index of the poll about to be made (also the number of
sleeps performed so far).  Returns ((polls, sleeps), outcome): outcome is
Except.error e when a poll itself failed (the ? operator propagates it),
else Except.ok (). -/
def drainAux (resp : Nat → Except String Bool) :
    Nat → Nat → (Nat × Nat) × Except String Unit
  | fuel, k =>
    match resp k with
    | Except.error e => ((k + 1, k), Except.error e)
    | Except.ok true => ((k + 1, k), Except.ok ())
    | Except.ok false =>
      match fuel with
      | 0 => ((k + 1, k), Except.ok ())
      | Nat.succ f => drainAux resp f (k + 1)

/-- The whole drain loop: starts at poll 0 with guard budget 20. -/
def check_finish_drain (resp : Nat → Except String Bool) :
    (Nat × Nat) × Except String Unit :=
  drainAux resp 20 0

/-- The async tail of push after local EOF (src/main.rs:257-265): run the
drain loop, then call push_finish exactly once, propagating its result;
if a check_finish poll itself errored, that error propagates and
push_finish is never called.  Returns ((polls, sleeps, pushFinishCalls),
overall result). -/
def push_async_tail (resp : Nat → Except String Bool)
    (finishRes : Except String Unit) :
    (Nat × Nat × Nat) × Except String Unit :=
  match check_finish_drain resp with
  | ((p, s), Except.ok ()) => ((p, s, 1), finishRes)
  | ((p, s), Except.error e) => ((p, s, 0), Except.error e)

/-- A filesystem path modelled Rust-style: an absoluteness flag plus the
list of normal components.  The root path "/" is (true, []) and the empty
path is (false, []). -/
structure RustPath where
  absolute : Bool
  comps : List String
  deriving DecidableEq, Repr

/-- Rust Path::parent: none for an empty component list (the paths ""
and "/"), else drop the last component. -/
def RustPath.parent (p : RustPath) : Option RustPath :=
  if p.comps = [] then none else some ⟨p.absolute, p.comps.dropLast⟩

/-- Rust Path::file_name: the last component, if any. -/
def RustPath.fileName (p : RustPath) : Option String :=
  p.comps.getLast?

/-- Rust PathBuf::join: an absolute argument replaces the base path. -/
def RustPath.flatten (p q : RustPath) : RustPath :=
  if q.absolute then q else ⟨p.absolute, p.comps ++ q.comps⟩

/-- Rust Path::strip_prefix, p.dropBase base: succeeds when base has the
same absoluteness and its components are a prefix of those of p, giving
the relative remainder. -/
def RustPath.dropBase (p base : RustPath) : Option RustPath :=
  if base.absolute = p.absolute ∧ base.comps <+: p.comps then
    some ⟨false, p.comps.drop base.comps.length⟩
  else none

/-- Replace every backslash by a forward slash, as the calls to
replace over path strings do in src/main.rs. -/
def normSlash (s : String) : String :=
  String.map (fun c => if c = '\\' then '/' else c) s

/-- Render a modelled path as the string to_string_lossy produces on a
Unix host: components separated by forward slashes, with a leading slash
when absolute. -/
def RustPath.render (p : RustPath) : String :=
  (if p.absolute then "/" else "") ++ String.intercalate "/" p.comps

/-- The logical name push_image computes for one file f of the tree
rooted at root (src/main.rs:307-332): take root.parent(); when present,
strip it from f and take the parent of the remainder, otherwise take f's
own parent; join the optional user dir in front; append f's file name;
normalize backslashes to forward slashes.  Option models the unwraps. -/
def image_check_file (dir : Option RustPath) (root f : RustPath) :
    Option String := do
  let par ← match root.parent with
    | some base => do
        let stripped ← f.dropBase base
        stripped.parent
    | none => f.parent
  let relative := match dir with
    | some d => d.flatten par
    | none => par
  let name ← f.fileName
  pure (normSlash ((relative.flatten ⟨false, [name]⟩).render))

/-- Modelled from the claim wording for comparison: the logical path is
dir_prefix / (f's parent relative to the root's parent) / f's basename,
with backslashes normalized; when the root has no parent, f's own parent
is used. -/
def spec_logical_path (dir : Option RustPath) (root f : RustPath) :
    Option String := do
  let par ← match root.parent with
    | some rootParent => do
        let fParent ← f.parent
        fParent.dropBase rootParent
    | none => f.parent
  let relative := match dir with
    | some d => d.flatten par
    | none => par
  let name ← f.fileName
  pure (normSlash ((relative.flatten ⟨false, [name]⟩).render))

/-- A registered write handle of the pull path
(src/controller/mod.rs:38-47): the file contents written so far and the
byte counts sent on the progress channel. -/
structure WriteHandle where
  contents : List Nat
  sent : List Nat
  deriving DecidableEq, Repr

/-- The write-handle registry (src/controller/mod.rs:49-59): the map from
transfer key to write handle, modelled as an association list. -/
structure FileWriteService where
  files : List (Nat × WriteHandle)
  deriving DecidableEq, Repr

/-- Seek to offset then write_all: bytes before offset are kept (padding
with zeros when the file is shorter), data overwrites from offset on, and
any old bytes beyond the written range are kept. -/
def writeAt (file : List Nat) (offset : Nat) (data : List Nat) : List Nat :=
  (file.take offset ++ List.replicate (offset - file.length) 0) ++ data ++
    file.drop (offset + data.length)

/-- Replace the handle stored under key. -/
def updateKey (files : List (Nat × WriteHandle)) (key : Nat)
    (wh : WriteHandle) : List (Nat × WriteHandle) :=
  files.map fun kv => if kv.1 = key then (key, wh) else kv

/-- write_wfs_by_key (src/controller/mod.rs:81-94): look the key up; when
present, seek to offset, write the data and send its length on the
progress channel; when absent, fail with the not-found-key error and
leave the state unchanged. -/
def write_wfs_by_key (s : FileWriteService) (key offset : Nat)
    (data : List Nat) : FileWriteService × Except String Unit :=
  match s.files.lookup key with
  | some wh =>
    (⟨updateKey s.files key
        ⟨writeAt wh.contents offset data, wh.sent ++ [data.length]⟩⟩,
      Except.ok ())
  | none => (s, Except.error ("not found key:" ++ toString key))

/-- The inbound callback write_file_by_key (src/controller/mod.rs:27-35):
delegates to write_wfs_by_key; an error is logged (second component) and
swallowed, the callback itself returning nothing. -/
def write_file_by_key (s : FileWriteService) (key offset : Nat)
    (data : List Nat) : FileWriteService × List String :=
  match write_wfs_by_key s key offset data with
  | (s', Except.ok ()) => (s', [])
  | (s', Except.error e) => (s', ["write_file_by_key err:" ++ e])

/-- The parsed pull subcommand options as declared in
src/clap_struct.rs:26-40: positional file, optional save, block with
default 131072, overwrite flag.  No async field is declared there. -/
structure PullOpt where
  file : Option String
  save : Option String
  block : Nat
  overwrite : Bool
  deriving DecidableEq, Repr

/-- Defaults of the declared pull options. -/
def pullDefaults : PullOpt := ⟨none, none, 131072, false⟩

/-- Argument parsing for the pull subcommand, modelling clap over exactly
the fields declared in src/clap_struct.rs:26-40: long or short forms of
save, block and overwrite, one required positional file, and a
clap-style unexpected-argument error on anything else whose first
character is a dash. -/
def parsePullArgs : (args : List String) → PullOpt → Except String PullOpt
  | [], acc =>
    match acc.file with
    | some _ => Except.ok acc
    | none => Except.error "missing required argument: file"
  | a :: rest, acc =>
    if a = "--save" ∨ a = "-s" then
      match rest with
      | v :: rest2 => parsePullArgs rest2 { acc with save := some v }
      | [] => Except.error ("a value is required for " ++ a)
    else if a = "--block" ∨ a = "-b" then
      match rest with
      | v :: rest2 =>
        match v.toNat? with
        | some n => parsePullArgs rest2 { acc with block := n }
        | none => Except.error ("invalid value for " ++ a)
      | [] => Except.error ("a value is required for " ++ a)
    else if a = "--overwrite" ∨ a = "-o" then
      parsePullArgs rest { acc with overwrite := true }
    else if a.data.head? = some '-' then
      Except.error ("unexpected argument: " ++ a)
    else
      match acc.file with
      | none => parsePullArgs rest { acc with file := some a }
      | some _ => Except.error ("unexpected argument: " ++ a)
termination_by structural args => args

/-- Parse a pull command line against the declared options. -/
def pull_args_parse (args : List String) : Except String PullOpt :=
  parsePullArgs args pullDefaults

/-- Rust PathBuf::join at the rendered-string level, as used for the save
path: joining an absolute path replaces the base. -/
def joinSave (s name : String) : String :=
  if name.startsWith "/" then name else s ++ "/" ++ name

/-- Resolution of the local save path in pull_file (src/main.rs:515-525):
when save names an existing directory, join the server-reported file name
under it; when save is a plain path, use it; when absent, use the
server-reported name itself.  The remote path argument file is listed to
mirror the source signature; the resolution never consults it, and the
server-supplied name is used verbatim, unvalidated. -/
def save_path (file : String) (save : Option String)
    (saveIsDir : String → Bool) (infoName : String) : String :=
  match save with
  | some s => if saveIsDir s then joinSave s infoName else s
  | none => infoName

/-! Helper lemmas shared by several claim theorems. -/

/-- A nonempty list is not empty in the Bool sense. -/
theorem isEmpty_false_of_ne_nil {α : Type} {l : List α} (h : l ≠ []) :
    l.isEmpty = false := by
  cases l with
  | nil => exact absurd rfl h
  | cons a t => rfl

/-- Claim C1 counterexample: when lock answers (false, msg), push_image
logs the message and returns Ok, so the command succeeds (exit 0) instead
of aborting with msg as the claim states. -/
theorem push_image_lock_failed_cex :
    (push_image_flow (fun _ => Except.ok ()) (false, "conflict: foo/bar")
      ["a", "b", "c"] false).2 = Except.ok () := rfl

/-- Claim C1 (amended): when lock answers (false, msg), no push call is
issued for any file of the batch; the message is logged via log error and
push_image returns Ok, so the lock failure does not propagate and the
process exits zero. -/
theorem push_image_lock_failed_flow (pushResult : String → Except String Unit)
    (cf : List String) (ow : Bool) (msg : String) :
    push_image_flow pushResult (false, msg) cf ow =
      ([ImageEvent.lockCall cf ow, ImageEvent.logLockError msg],
        Except.ok ()) ∧
    ∀ n, ImageEvent.pushFile n ∉ (push_image_flow pushResult (false, msg) cf ow).1 := by
  constructor
  · rfl
  · intro n
    simp [push_image_flow]

/-- Claim C2: after any completed pull, the saved file is removed iff the
digest recomputed over the saved bytes differs from the server-reported
one; on a mismatch the removal precedes the returned error, and the error
carries the remote digest and the locally computed digest. -/
theorem pull_file_finish_spec (b3hex : List Nat → String)
    (savedReads : List ReadResult) (remoteB3 : String) :
    (PullEvent.removeFile ∈ (pull_file_finish b3hex savedReads remoteB3).1 ↔
      b3hex (hashedBytes savedReads) ≠ remoteB3) ∧
    pull_file_finish b3hex savedReads remoteB3 =
      (if b3hex (hashedBytes savedReads) ≠ remoteB3 then
        ([PullEvent.removeFile],
          Except.error (remoteB3, b3hex (hashedBytes savedReads)))
      else ([PullEvent.logSuccess], Except.ok ())) := by
  by_cases h : b3hex (hashedBytes savedReads) = remoteB3 <;>
    simp [pull_file_finish, pull_file_verify, h]

/-- Claim C3: the pull subcommand as declared in src/clap_struct.rs has
no async flag, so parsing a pull invocation with the async switch fails
with an unexpected-argument error. -/
theorem pull_rejects_async_flag :
    pull_args_parse ["data.bin", "--async"] =
      Except.error "unexpected argument: --async" := rfl

/-- Claim C4 counterexample: when the first read RPC fails with a
transport error, the sync pull loop does not surface it; it proceeds to
flush, finish_read_key and the re-hash, and the read phase reports
success with no chunks. -/
theorem pull_sync_transport_error_cex :
    pull_file_sync_trace [Except.error "connection lost"] =
      [PullEvent.flushFd, PullEvent.finishReadKey, PullEvent.rehashFile] ∧
    pull_file_sync_read_result [Except.error "connection lost"] =
      Except.ok [] := ⟨rfl, rfl⟩

/-- Claim C4 (amended): a transport error from a read RPC ends the sync
download loop exactly like end-of-stream; the chunks received before the
error are kept, the engine proceeds to flush, finish_read_key and hash
verification, and the transport error is never surfaced. -/
theorem pull_sync_error_as_eof (good : List (List Nat)) (e : String)
    (rest : List ReadResult) (h : ∀ d ∈ good, d ≠ []) :
    syncReadChunks (good.map Except.ok ++ Except.error e :: rest) = good ∧
    pull_file_sync_trace (good.map Except.ok ++ Except.error e :: rest) =
      good.map PullEvent.writeAll ++
        [PullEvent.flushFd, PullEvent.finishReadKey, PullEvent.rehashFile] ∧
    pull_file_sync_read_result (good.map Except.ok ++ Except.error e :: rest) =
      Except.ok good := by
  have key : syncReadChunks (good.map Except.ok ++ Except.error e :: rest) = good := by
    induction good with
    | nil => rfl
    | cons d ds ih =>
      have hd : d.isEmpty = false := isEmpty_false_of_ne_nil (h d (by simp))
      simp [syncReadChunks, hd, ih (fun x hx => h x (by simp [hx]))]
  exact ⟨key, by simp [pull_file_sync_trace, key],
    by simp [pull_file_sync_read_result, key]⟩

/-- Witness for pull_sync_error_as_eof at a concrete input. -/
theorem pull_sync_error_as_eof_witness :
    (∀ d ∈ [[1, 2], [3]], d ≠ ([] : List Nat)) ∧
    (syncReadChunks
        ([[1, 2], [3]].map Except.ok ++ Except.error "timeout" :: []) =
      [[1, 2], [3]] ∧
    pull_file_sync_trace
        ([[1, 2], [3]].map Except.ok ++ Except.error "timeout" :: []) =
      [[1, 2], [3]].map PullEvent.writeAll ++
        [PullEvent.flushFd, PullEvent.finishReadKey, PullEvent.rehashFile] ∧
    pull_file_sync_read_result
        ([[1, 2], [3]].map Except.ok ++ Except.error "timeout" :: []) =
      Except.ok [[1, 2], [3]]) :=
  ⟨by decide, pull_sync_error_as_eof [[1, 2], [3]] "timeout" [] (by decide)⟩

/-- Claim C5 counterexample: a read error does not make the hasher fail;
the digest block succeeds and simply hashes the bytes read before the
error (here none), ignoring anything after it. -/
theorem hasher_swallows_read_error_cex :
    hasherResult [Except.error "read failed", Except.ok [1, 2]] =
      Except.ok [] := rfl

/-- Claim C5 (amended): the hasher never fails; an underlying read error
ends the hashing loop exactly like end-of-file, and the digest is
computed over the bytes successfully read before the error. -/
theorem hasher_error_as_eof (good : List (List Nat)) (e : String)
    (rest : List ReadResult) (h : ∀ d ∈ good, d ≠ []) :
    hashedBytes (good.map Except.ok ++ Except.error e :: rest) = good.flatten ∧
    hasherResult (good.map Except.ok ++ Except.error e :: rest) =
      Except.ok good.flatten := by
  have key : hashedBytes (good.map Except.ok ++ Except.error e :: rest) = good.flatten := by
    induction good with
    | nil => rfl
    | cons d ds ih =>
      have hd : d.length > 0 := List.length_pos.mpr (h d (by simp))
      simp [hashedBytes, hd, ih (fun x hx => h x (by simp [hx]))]
  exact ⟨key, by simp [hasherResult, key]⟩

/-- Witness for hasher_error_as_eof at a concrete input. -/
theorem hasher_error_as_eof_witness :
    (∀ d ∈ [[1, 2], [3]], d ≠ ([] : List Nat)) ∧
    (hashedBytes ([[1, 2], [3]].map Except.ok ++ Except.error "boom" :: []) =
      [[1, 2], [3]].flatten ∧
    hasherResult ([[1, 2], [3]].map Except.ok ++ Except.error "boom" :: []) =
      Except.ok [[1, 2], [3]].flatten) :=
  ⟨by decide, hasher_error_as_eof [[1, 2], [3]] "boom" [] (by decide)⟩

/-- Claim C9: a write_file_by_key callback whose key is not registered
fails inside the registry with the not-found-key error, leaves the
registry state unchanged, and the callback endpoint logs and swallows
the error instead of propagating it. -/
theorem write_wfs_unknown_key (s : FileWriteService) (key offset : Nat)
    (data : List Nat) (h : s.files.lookup key = none) :
    write_wfs_by_key s key offset data =
      (s, Except.error ("not found key:" ++ toString key)) ∧
    write_file_by_key s key offset data =
      (s, ["write_file_by_key err:" ++ ("not found key:" ++ toString key)]) := by
  constructor <;> simp [write_file_by_key, write_wfs_by_key, h]

/-- Witness for write_wfs_unknown_key at a concrete input. -/
theorem write_wfs_unknown_key_witness :
    (FileWriteService.mk []).files.lookup 5 = none ∧
    (write_wfs_by_key ⟨[]⟩ 5 0 [9] =
      (⟨[]⟩, Except.error ("not found key:" ++ toString 5)) ∧
    write_file_by_key ⟨[]⟩ 5 0 [9] =
      (⟨[]⟩, ["write_file_by_key err:" ++ ("not found key:" ++ toString 5)])) :=
  ⟨rfl, write_wfs_unknown_key ⟨[]⟩ 5 0 [9] rfl⟩

/-- Claim C10: the resolved save path never depends on the remote path
the user requested; with no save location the server-supplied name is
used verbatim, and with an existing directory the name is joined verbatim
under it. -/
theorem save_path_uses_info_name (file1 file2 : String) (save : Option String)
    (isDir : String → Bool) (name : String) :
    save_path file1 save isDir name = save_path file2 save isDir name ∧
    save_path file1 none isDir name = name ∧
    ∀ s, isDir s = true →
      ∃ pre, save_path file1 (some s) isDir name = pre ++ name := by
  refine ⟨rfl, rfl, fun s hs => ?_⟩
  by_cases h : name.startsWith "/"
  · exact ⟨"", by simp [save_path, hs, joinSave, h]⟩
  · refine ⟨s ++ "/", ?_⟩
    simp [save_path, hs, joinSave, h, String.append_assoc]

/-- Characterization of the drain loop when every poll succeeds: starting
at poll k with fuel budget, some p polls happen in total with p - 1
sleeps, at least one poll past k is made, the fuel bounds the total, and
the loop never polls past the first index answering true. -/
theorem drainAux_ok_spec (resp : Nat → Bool) :
    ∀ (fuel k : Nat), ∃ p,
      drainAux (fun j => Except.ok (resp j)) fuel k =
        ((p, p - 1), Except.ok ()) ∧
      k < p ∧ p ≤ k + fuel + 1 ∧
      ∀ j, k ≤ j → resp j = true → p ≤ j + 1 := by
  intro fuel
  induction fuel with
  | zero =>
    intro k
    refine ⟨k + 1, ?_, Nat.lt_succ_self k, Nat.le_refl _, ?_⟩
    · cases hr : resp k <;> simp [drainAux, hr]
    · intro j hj _
      exact Nat.succ_le_succ hj
  | succ f ih =>
    intro k
    cases hr : resp k with
    | true =>
      refine ⟨k + 1, by simp [drainAux, hr], Nat.lt_succ_self k, by omega, ?_⟩
      intro j hj _
      exact Nat.succ_le_succ hj
    | false =>
      obtain ⟨p, heq, hlt, hle, hstop⟩ := ih (k + 1)
      refine ⟨p, by simp [drainAux, hr, heq], Nat.lt_of_succ_lt hlt, by omega, ?_⟩
      intro j hj hjt
      rcases Nat.lt_or_ge j (k + 1) with hcase | hcase
      · have : j = k := by omega
        rw [this] at hjt
        exact absurd hjt (by simp [hr])
      · exact hstop j hcase hjt

/-- Claim C6 counterexample: when the server keeps answering false, the
drain loop calls check_finish 21 times, not at most 20 (the guard
retry_count < 20 lets one more poll through after the 20th sleep). -/
theorem check_finish_poll_count_cex :
    (push_async_tail (fun _ => Except.ok false) (Except.ok ())).1.1 = 21 ∧
    ¬ (push_async_tail (fun _ => Except.ok false) (Except.ok ())).1.1 ≤ 20 := by
  decide

/-- Claim C6 (amended): after local EOF, with every poll answered, the
client polls check_finish at most 21 times with a 10 ms sleep between
consecutive polls (sleeps = polls - 1, so at most 20 sleeps), never polls
past the first index answering true, proceeds regardless when the budget
is exhausted, and then calls push_finish exactly once, its result
becoming the result of the tail. -/
theorem push_async_drain_spec (resp : Nat → Bool)
    (finishRes : Except String Unit) :
    ∃ p, push_async_tail (fun j => Except.ok (resp j)) finishRes =
        ((p, p - 1, 1), finishRes) ∧
      1 ≤ p ∧ p ≤ 21 ∧ ∀ j, resp j = true → p ≤ j + 1 := by
  obtain ⟨p, heq, hlt, hle, hstop⟩ := drainAux_ok_spec resp 20 0
  refine ⟨p, ?_, hlt, by omega, fun j hj => hstop j (Nat.zero_le j) hj⟩
  simp [push_async_tail, check_finish_drain, heq]

/-- With a positive block size and enough fuel, the chunks read by the
upload loop concatenate back to the file contents. -/
theorem chunkFileGo_flatten (block : Nat) (hb : 0 < block) :
    ∀ (fuel : Nat) (data : List Nat), data.length ≤ fuel →
      (chunkFileGo block fuel data).flatten = data := by
  intro fuel
  induction fuel with
  | zero =>
    intro data h
    have : data = [] := List.eq_nil_of_length_eq_zero (Nat.le_zero.mp h)
    subst this
    rfl
  | succ f ih =>
    intro data h
    cases data with
    | nil => rfl
    | cons d ds =>
      have hbne : ¬ block = 0 := Nat.pos_iff_ne_zero.mp hb
      have hdrop : ((d :: ds).drop block).length ≤ f := by
        simp only [List.length_drop, List.length_cons]
        simp only [List.length_cons] at h
        omega
      simp only [chunkFileGo, hbne, if_false, List.flatten_cons, ih _ hdrop,
        List.take_append_drop]

/-- With a positive block size and enough fuel, every chunk read by the
upload loop is nonempty. -/
theorem chunkFileGo_ne_nil (block : Nat) (hb : 0 < block) :
    ∀ (fuel : Nat) (data : List Nat) (c : List Nat),
      c ∈ chunkFileGo block fuel data → c ≠ [] := by
  intro fuel
  induction fuel with
  | zero =>
    intro data c hc
    cases data <;> simp [chunkFileGo] at hc
  | succ f ih =>
    intro data c hc
    cases data with
    | nil => simp [chunkFileGo] at hc
    | cons d ds =>
      have hbne : ¬ block = 0 := Nat.pos_iff_ne_zero.mp hb
      simp only [chunkFileGo, hbne, if_false, List.mem_cons] at hc
      rcases hc with hc | hc
      · subst hc
        cases block with
        | zero => exact absurd rfl hbne
        | succ b => simp [List.take]
      · exact ih _ _ hc

/-- The payloads of the offset-attached calls are the chunks themselves. -/
theorem writeCalls_snd :
    ∀ (cs : List (List Nat)) (pos : Nat),
      (writeCalls pos cs).map Prod.snd = cs := by
  intro cs
  induction cs with
  | nil => intro pos; rfl
  | cons c cs ih => intro pos; simp [writeCalls, ih]

/-- Offset-attached calls over nonempty chunks are contiguous from their
starting position. -/
theorem writeCalls_contiguous :
    ∀ (cs : List (List Nat)) (pos : Nat), (∀ c ∈ cs, c ≠ []) →
      contiguousFrom pos (writeCalls pos cs) = true := by
  intro cs
  induction cs with
  | nil => intro pos _; rfl
  | cons c cs ih =>
    intro pos h
    have hc : c.isEmpty = false := isEmpty_false_of_ne_nil (h c (by simp))
    simp [writeCalls, contiguousFrom, hc, ih (pos + c.length)
      (fun x hx => h x (by simp [hx]))]

/-- The upload loop consumes a run of successful nonempty reads one
write per read, then continues into the remaining read results at the
advanced position. -/
theorem pushWriteLoop_ok_run (cs : List (List Nat)) :
    ∀ (pos : Nat) (tail : List ReadResult), (∀ c ∈ cs, c ≠ []) →
      pushWriteLoop pos (cs.map Except.ok ++ tail) =
        writeCalls pos cs ++ pushWriteLoop (pos + cs.flatten.length) tail := by
  induction cs with
  | nil => intro pos tail _; simp [writeCalls]
  | cons c cs ih =>
    intro pos tail h
    have hc : c.isEmpty = false := isEmpty_false_of_ne_nil (h c (by simp))
    simp [pushWriteLoop, hc, writeCalls,
      ih (pos + c.length) tail (fun x hx => h x (by simp [hx])), Nat.add_assoc]

/-- With a positive block size, an error-free run of the upload loop
issues exactly the offset-attached chunks of the file. -/
theorem push_write_offset_calls_eq (block : Nat) (data : List Nat)
    (hb : 0 < block) :
    push_write_offset_calls block data =
      writeCalls 0 (chunkFile block data) := by
  have hne : ∀ c ∈ chunkFile block data, c ≠ [] :=
    fun c hc => chunkFileGo_ne_nil block hb data.length data c hc
  rw [push_write_offset_calls, fileReads,
    pushWriteLoop_ok_run (chunkFile block data) 0 [Except.ok []] hne]
  simp [pushWriteLoop]

/-- Claim C7 counterexample: with block size 0 (accepted by the CLI)
nothing is ever delivered for a nonempty file, and a mid-file read error
breaks the upload loop like EOF (while let Ok), silently truncating
delivery, so in both runs the data-carrying calls fail to cover the
file. -/
theorem push_writes_cover_cex :
    ((push_write_offset_calls 0 [7]).map Prod.snd).flatten ≠ [7] ∧
    ((pushWriteLoop 0
        [Except.ok [5], Except.error "read failed", Except.ok [6],
          Except.ok []]).map Prod.snd).flatten ≠ [5, 6] := by
  decide

/-- Claim C7 (amended): for every positive block size, when every local
read succeeds the sync-mode write payloads concatenate to the file
contents in order, and the async-mode write_offset calls carry nonempty
payloads whose offsets are exactly the running positions, covering the
whole file contiguously from offset 0 in increasing order. -/
theorem push_writes_cover (block : Nat) (data : List Nat) (hb : 0 < block) :
    (push_write_chunks block data).flatten = data ∧
    contiguousFrom 0 (push_write_offset_calls block data) = true ∧
    ((push_write_offset_calls block data).map Prod.snd).flatten = data := by
  have heq := push_write_offset_calls_eq block data hb
  have hflat : (chunkFile block data).flatten = data :=
    chunkFileGo_flatten block hb data.length data (Nat.le_refl _)
  have hne : ∀ c ∈ chunkFile block data, c ≠ [] :=
    fun c hc => chunkFileGo_ne_nil block hb data.length data c hc
  refine ⟨?_, ?_, ?_⟩
  · rw [push_write_chunks, heq, writeCalls_snd]
    exact hflat
  · rw [heq]
    exact writeCalls_contiguous (chunkFile block data) 0 hne
  · rw [heq, writeCalls_snd]
    exact hflat

/-- Witness for push_writes_cover at a concrete input. -/
theorem push_writes_cover_witness :
    0 < 2 ∧
    ((push_write_chunks 2 [5, 6, 7]).flatten = [5, 6, 7] ∧
    contiguousFrom 0 (push_write_offset_calls 2 [5, 6, 7]) = true ∧
    ((push_write_offset_calls 2 [5, 6, 7]).map Prod.snd).flatten =
      [5, 6, 7]) :=
  ⟨by decide, push_writes_cover 2 [5, 6, 7] (by decide)⟩

/-- Rust parent of a path ending in a component drops that component. -/
theorem RustPath.parent_concat (a : Bool) (l : List String) (y : String) :
    RustPath.parent ⟨a, l ++ [y]⟩ = some ⟨a, l⟩ := by
  simp [RustPath.parent, List.dropLast_concat]

/-- Rust strip_prefix of a true component prefix yields the relative
remainder. -/
theorem RustPath.dropBase_append (a : Bool) (base rest : List String) :
    RustPath.dropBase ⟨a, base ++ rest⟩ ⟨a, base⟩ = some ⟨false, rest⟩ := by
  simp [RustPath.dropBase, List.prefix_append, List.drop_left]

/-- Dropping the last element of a cons-with-trailing-component list. -/
theorem dropLast_cons_concat {α : Type} (y : α) (t : List α) (x : α) :
    (y :: (t ++ [x])).dropLast = y :: t := by
  rw [← List.cons_append, List.dropLast_concat]

/-- Dropping the last element behind an append. -/
theorem dropLast_append_cons_concat {α : Type} (l t : List α) (y x : α) :
    (l ++ (y :: (t ++ [x]))).dropLast = l ++ (y :: t) := by
  rw [show l ++ (y :: (t ++ [x])) = (l ++ (y :: t)) ++ [x] by simp]
  rw [List.dropLast_concat]

/-- The last element behind an append. -/
theorem getLast?_append_cons_concat {α : Type} (l t : List α) (y x : α) :
    (l ++ (y :: (t ++ [x]))).getLast? = some x := by
  rw [show l ++ (y :: (t ++ [x])) = (l ++ (y :: t)) ++ [x] by simp]
  rw [List.getLast?_concat]

/-- The last element of a cons-with-trailing-component list. -/
theorem getLast?_cons_concat {α : Type} (y : α) (t : List α) (x : α) :
    (y :: (t ++ [x])).getLast? = some x := by
  rw [← List.cons_append, List.getLast?_concat]

/-- Claim C8: for every file strictly below the image root (root
components rc, file components rc followed by a nonempty remainder
ending in the basename x), the logical name push_image computes equals
the claimed formula dir-prefix / (parent of f relative to the parent of
the root, or f's own parent when the root has none) / basename, with
backslashes normalized; and it is well defined. -/
theorem image_check_file_eq_spec (dir : Option RustPath) (a : Bool)
    (rc t : List String) (x : String) :
    image_check_file dir ⟨a, rc⟩ ⟨a, rc ++ (t ++ [x])⟩ =
      spec_logical_path dir ⟨a, rc⟩ ⟨a, rc ++ (t ++ [x])⟩ ∧
    (image_check_file dir ⟨a, rc⟩ ⟨a, rc ++ (t ++ [x])⟩).isSome = true := by
  rcases List.eq_nil_or_concat rc with hrc | ⟨rc', y, hrc⟩
  · subst hrc
    simp only [List.nil_append]
    have hp : RustPath.parent ⟨a, t ++ [x]⟩ = some ⟨a, t⟩ :=
      RustPath.parent_concat a t x
    have hroot : RustPath.parent ⟨a, ([] : List String)⟩ = none := by
      simp [RustPath.parent]
    constructor
    · simp [image_check_file, spec_logical_path, hroot]
    · simp [image_check_file, hroot, hp, RustPath.fileName,
        List.getLast?_concat]
  · rw [List.concat_eq_append] at hrc
    subst hrc
    have e : (rc' ++ [y]) ++ (t ++ [x]) = rc' ++ (y :: (t ++ [x])) := by simp
    rw [e]
    have hroot : RustPath.parent ⟨a, rc' ++ [y]⟩ = some ⟨a, rc'⟩ :=
      RustPath.parent_concat a rc' y
    have hstrip : RustPath.dropBase ⟨a, rc' ++ (y :: (t ++ [x]))⟩ ⟨a, rc'⟩ =
        some ⟨false, y :: (t ++ [x])⟩ := RustPath.dropBase_append a rc' _
    have hp1 : RustPath.parent ⟨false, y :: (t ++ [x])⟩ =
        some ⟨false, y :: t⟩ := by
      simp [RustPath.parent, dropLast_cons_concat]
    have hfp : RustPath.parent ⟨a, rc' ++ (y :: (t ++ [x]))⟩ =
        some ⟨a, rc' ++ (y :: t)⟩ := by
      simp [RustPath.parent, dropLast_append_cons_concat, dropLast_cons_concat]
    have hstrip2 : RustPath.dropBase ⟨a, rc' ++ (y :: t)⟩ ⟨a, rc'⟩ =
        some ⟨false, y :: t⟩ := RustPath.dropBase_append a rc' _
    have hname : RustPath.fileName ⟨a, rc' ++ (y :: (t ++ [x]))⟩ = some x := by
      simp [RustPath.fileName, getLast?_append_cons_concat,
        getLast?_cons_concat]
    constructor
    · simp [image_check_file, spec_logical_path, hroot, hstrip, hp1, hfp,
        hstrip2]
    · simp [image_check_file, hroot, hstrip, hp1, hname]
